import Mathlib

set_option maxRecDepth 100000

/-!
Verification of the ChunkyMonkey retrieval-augmented answering pipeline.

The repository documents its RAG core as Rust source excerpts in
`README.md` (`score_chunk_relevance`, `ContextQuality`,
`generate_advanced_rag_response`, `generate_standard_rag_response`,
`generate_fallback_response`, `validate_and_enhance_answer`, the retrieval
strategy triggers, and the `[rag]` configuration block).  This file gives a
shallow embedding of that core over `ℚ` (the Rust `f32` scores are embedded
as exact rationals) and `List Char` (case folding and substring search are
spelled out character by character).  Parts of the pipeline that the
excerpts reference but do not define (tokenization, result merging, the
pipeline composition) are modelled from the design spec; each such
definition carries a doc comment saying so.
-/

namespace ChunkyMonkey

/-- Case-folded character data of a string: embeds Rust `s.to_lowercase()`
applied before the scorer's substring checks. -/
def lowerData (s : String) : List Char :=
  s.data.map Char.toLower

/-- Substring containment on character lists: embeds Rust
`str::contains` (`text.contains(pat)` holds iff `pat` occurs contiguously
in `text`). -/
def listContains (text pat : List Char) : Bool :=
  if pat.isPrefixOf text then true
  else
    match text with
    | [] => false
    | _ :: t => listContains t pat

/-- String-level substring containment, embeds Rust `s.contains(pat)`. -/
def strContains (s pat : String) : Bool :=
  listContains s.data pat.data

/-- Embeds Rust `!context.trim().is_empty()`: a trimmed string is non-empty
iff some character is not whitespace. -/
def hasNonWs (s : String) : Bool :=
  s.data.any (fun c => !c.isWhitespace)

/-- Modelled from the spec: whitespace splitting of a character list
(the README excerpt uses `question_words`/`content_words` without showing
their construction; the spec fixes tokens as whitespace-separated words). -/
def splitWsAux : List Char → List Char → List (List Char)
  | [], cur => [cur.reverse]
  | c :: cs, cur =>
    if c.isWhitespace then cur.reverse :: splitWsAux cs []
    else splitWsAux cs (c :: cur)

/-- Modelled from the spec: tokenization used by the scorer — case-folded,
whitespace-split, keeping only tokens of length > 3 (the spec's
"question tokens (length > 3, case-folded)"). -/
def tokenize (s : String) : List (List Char) :=
  (splitWsAux (lowerData s) []).filter (fun w => decide (w.length > 3))

/-- The fixed technical-term vocabulary of `score_chunk_relevance`:
`let technical_terms = ["function", "class", "method", "api", "database"]`. -/
def technical_terms : List String :=
  ["function", "class", "method", "api", "database"]

/-- Sub-score 1 of `score_chunk_relevance`: exact keyword matching,
`(exact_matches as f32 / question_words.len() as f32) * 0.5`.
Division by zero is taken as 0 (the spec's "define 0/0 as 0"). -/
def exactTerm (chunk_content question : String) : ℚ :=
  (((tokenize question).filter
      (fun w => (tokenize chunk_content).contains w)).length : ℚ)
    / ((tokenize question).length : ℚ) * (1/2)

/-- Sub-score 2 of `score_chunk_relevance`: partial word matching,
`cw.contains(*word) || word.contains(cw)`, weighted `* 0.3`. -/
def subwordTerm (chunk_content question : String) : ℚ :=
  (((tokenize question).filter
      (fun w => (tokenize chunk_content).any
        (fun cw => listContains cw w || listContains w cw))).length : ℚ)
    / ((tokenize question).length : ℚ) * (3/10)

/-- Sub-score 3 of `score_chunk_relevance`: technical term relevance,
`question_lower.contains(*term) && content_lower.contains(*term)`,
divided by `technical_terms.len()` and weighted `* 0.2`. -/
def techTerm (chunk_content question : String) : ℚ :=
  ((technical_terms.filter
      (fun t => listContains (lowerData question) t.data
             && listContains (lowerData chunk_content) t.data)).length : ℚ)
    / ((technical_terms.length : ℚ)) * (1/5)

/-- Sub-score 4 of `score_chunk_relevance`: content type optimization,
`if content_lower.contains("def ") || content_lower.contains("fn ")`. -/
def defBonus (chunk_content : String) : ℚ :=
  if listContains (lowerData chunk_content) ("def ".data)
      || listContains (lowerData chunk_content) ("fn ".data) then 1/10 else 0

/-- Sub-score 5 of `score_chunk_relevance`: content length optimization,
`if content_length > 30 && content_length < 500`. -/
def lenBonus (chunk_content : String) : ℚ :=
  if 30 < chunk_content.length ∧ chunk_content.length < 500 then 1/10 else 0

/-- Sub-score 6 of `score_chunk_relevance`: question-specific scoring,
`if question_lower.contains("how") && content_length > 100`. -/
def howBonus (chunk_content question : String) : ℚ :=
  if listContains (lowerData question) ("how".data)
      ∧ 100 < chunk_content.length then 1/10 else 0

/-- The scorer `score_chunk_relevance` of the README: the six weighted
sub-scores accumulated into `score`, returned as `score.min(1.0)`. -/
def score_chunk_relevance (chunk_content question : String) : ℚ :=
  min (exactTerm chunk_content question + subwordTerm chunk_content question
    + techTerm chunk_content question + defBonus chunk_content
    + lenBonus chunk_content + howBonus chunk_content question) 1

/-- Modelled from the spec: `clamp(s, 0, 1)` — the spec states the final
score as a clamp to `[0,1]` while the source applies only `min` with 1. -/
def clamp01 (s : ℚ) : ℚ :=
  max 0 (min s 1)

/-- The `ContextQuality` enum of the README. -/
inductive ContextQuality
  | excellent
  | good
  | acceptable
  | poor
deriving DecidableEq

/-- Modelled from the spec: `classify(aggregateScore)` — the README gives
only the enum with its documented thresholds (`Excellent` for score >= 0.8,
`Good` for >= 0.6, `Acceptable` for >= 0.4, `Poor` below). -/
def classify (s : ℚ) : ContextQuality :=
  if 4/5 ≤ s then .excellent
  else if 3/5 ≤ s then .good
  else if 2/5 ≤ s then .acceptable
  else .poor

/-- The retrieval strategy tags of the spec's data model. -/
inductive StrategyOrigin
  | primary
  | localFallback
  | semanticExpansion
deriving DecidableEq

/-- The spec's `RetrievalResult`: a chunk reference with its index-native
similarity, its scorer-produced relevance, and the strategy that found it. -/
structure RetrievalResult where
  chunkId : Nat
  text : String
  similarity : ℚ
  relevanceScore : ℚ
  origin : StrategyOrigin
deriving DecidableEq

/-- Modelled from the spec: the ContextBundle ordering relation —
descending `relevanceScore`, ties broken by descending `similarity`, then
by ascending `chunk.id`. -/
def bundleLE (a b : RetrievalResult) : Prop :=
  b.relevanceScore < a.relevanceScore
    ∨ (a.relevanceScore = b.relevanceScore
        ∧ (b.similarity < a.similarity
            ∨ (a.similarity = b.similarity ∧ a.chunkId ≤ b.chunkId)))

instance : DecidableRel bundleLE := fun a b =>
  inferInstanceAs (Decidable (_ ∨ (_ ∧ (_ ∨ (_ ∧ _)))))

instance : IsTotal RetrievalResult bundleLE where
  total a b := by
    rcases lt_trichotomy a.relevanceScore b.relevanceScore with h | h | h
    · exact Or.inr (Or.inl h)
    · rcases lt_trichotomy a.similarity b.similarity with h2 | h2 | h2
      · exact Or.inr (Or.inr ⟨h.symm, Or.inl h2⟩)
      · rcases Nat.le_total a.chunkId b.chunkId with h3 | h3
        · exact Or.inl (Or.inr ⟨h, Or.inr ⟨h2, h3⟩⟩)
        · exact Or.inr (Or.inr ⟨h.symm, Or.inr ⟨h2.symm, h3⟩⟩)
      · exact Or.inl (Or.inr ⟨h, Or.inl h2⟩)
    · exact Or.inl (Or.inl h)

instance : IsTrans RetrievalResult bundleLE where
  trans _a _b c hab hbc := by
    rcases hab with h1 | ⟨e1, h1⟩ <;> rcases hbc with h2 | ⟨e2, h2⟩
    · exact Or.inl (lt_trans h2 h1)
    · exact Or.inl (e2 ▸ h1)
    · exact Or.inl (e1 ▸ h2)
    · refine Or.inr ⟨e1.trans e2, ?_⟩
      rcases h1 with h1 | ⟨f1, h1⟩ <;> rcases h2 with h2 | ⟨f2, h2⟩
      · exact Or.inl (lt_trans h2 h1)
      · exact Or.inl (f2 ▸ h1)
      · exact Or.inl (f1 ▸ h2)
      · exact Or.inr ⟨f1.trans f2, Nat.le_trans h1 h2⟩

/-- Modelled from the spec: merging one result into the working set —
deduplicate by `chunk.id`, keeping the entry with the higher
`relevanceScore`. -/
def dedupInsert (acc : List RetrievalResult) (r : RetrievalResult) :
    List RetrievalResult :=
  if acc.any (fun x => x.chunkId == r.chunkId) then
    acc.map (fun x =>
      if x.chunkId == r.chunkId ∧ x.relevanceScore < r.relevanceScore
      then r else x)
  else acc ++ [r]

/-- Modelled from the spec: fold all raw strategy hits into a deduplicated
working set. -/
def dedupAll (rs : List RetrievalResult) : List RetrievalResult :=
  rs.foldl dedupInsert []

/-- Modelled from the spec: assembling the ContextBundle — deduplicate by
`chunk.id` keeping the higher relevance, sort by the bundle ordering, and
truncate to `contextSize`. -/
def assembleBundle (raw : List RetrievalResult) (contextSize : Nat) :
    List RetrievalResult :=
  (List.insertionSort bundleLE (dedupAll raw)).take contextSize

/-- Modelled from the spec: `aggregateScore` is the arithmetic mean of
`relevanceScore` over the kept entries, with the mean of an empty bundle
defined as 0 (division by zero is 0 in `ℚ`). -/
def aggregateScore (bundle : List RetrievalResult) : ℚ :=
  (bundle.map (fun r => r.relevanceScore)).sum / (bundle.length : ℚ)

/-- Modelled from the spec: the context text handed to the generation
strategies is the bundle's chunk texts joined by blank lines. -/
def contextString : List RetrievalResult → String
  | [] => ""
  | [r] => r.text
  | r :: rest => r.text ++ "\n\n" ++ contextString rest

/-- The "could not answer" sentinel recognized by
`generate_advanced_rag_response`. -/
def sentinel : String :=
  "I couldn't generate a response"

/-- `generate_standard_rag_response` of the README; the helper
`extract_key_information` is not shown in the source, so the strategy is
parametrized by it. -/
def generate_standard_rag_response
    (extract_key_information : String → String → String)
    (question context : String) (_quality : ContextQuality) :
    Except String String :=
  let key_info := extract_key_information context question
  if key_info.isEmpty then
    .ok ("Based on the available information, I couldn't find specific "
      ++ "details to answer your question. Consider rephrasing or indexing "
      ++ "more relevant documents.")
  else
    .ok ("Based on the indexed documents, here's what I found:\n\n" ++ key_info)

/-- `generate_advanced_rag_response` of the README: the LLM collaborator's
outcome is passed in as `llmResult` (`none` embeds an unconfigured
`llm_client`); a non-empty answer free of the sentinel is returned
verbatim, every other case falls back to the Standard strategy. -/
def generate_advanced_rag_response
    (extract_key_information : String → String → String)
    (llmResult : Option (Except String String))
    (question context : String) (quality : ContextQuality) :
    Except String String :=
  match llmResult with
  | some (.ok llm_answer) =>
    if !llm_answer.isEmpty && !strContains llm_answer sentinel then
      .ok llm_answer
    else
      generate_standard_rag_response extract_key_information question context quality
  | some (.error _) =>
    generate_standard_rag_response extract_key_information question context quality
  | none =>
    generate_standard_rag_response extract_key_information question context quality

/-- The fixed message built by `generate_fallback_response` before any
context is appended, assembled from the source's `push_str` calls. -/
def fallbackBase : String :=
  "I don't have enough specific information to provide a detailed answer. "
  ++ "However, this appears to be a semantic search and RAG system.\n\n"
  ++ "To get better answers, consider:\n"
  ++ "1. Indexing more documentation about the topic\n"
  ++ "2. Using more specific search terms\n"
  ++ "3. Checking if the documents are properly indexed\n\n"

/-- `generate_fallback_response` of the README: the templated low-confidence
message; `if !context.trim().is_empty()` the labeled limited-context
section is appended (what follows the label is modelled from the spec as
the context itself). -/
def generate_fallback_response (_question context : String)
    (_quality : ContextQuality) : Except String String :=
  if hasNonWs context then
    .ok (fallbackBase ++ "Available context (limited):\n" ++ context)
  else
    .ok fallbackBase

/-- The `[rag]` configuration flags consulted by
`validate_and_enhance_answer`. -/
structure RagConfig where
  enable_confidence_scoring : Bool
  enable_source_attribution : Bool
deriving DecidableEq

/-- The documented default `[rag]` configuration of the README
(`enable_confidence_scoring = true`, `enable_source_attribution = true`). -/
def defaultRagConfig : RagConfig :=
  { enable_confidence_scoring := true, enable_source_attribution := true }

/-- The fixed confidence sentence appended per quality class by
`validate_and_enhance_answer`. -/
def confidenceLine : ContextQuality → String
  | .excellent =>
    "\n\nConfidence: High - Based on comprehensive and relevant information."
  | .good =>
    "\n\nConfidence: Good - Based on relevant information with some gaps."
  | .acceptable =>
    "\n\nConfidence: Moderate - Based on limited but relevant information."
  | .poor =>
    "\n\nConfidence: Low - Limited relevant information available."

/-- The confidence label keyed by quality class (the word between
"Confidence: " and " -" in `confidenceLine`). -/
def confidenceLabel : ContextQuality → String
  | .excellent => "High"
  | .good => "Good"
  | .acceptable => "Moderate"
  | .poor => "Low"

/-- The fixed note appended by `validate_and_enhance_answer` when source
attribution is enabled but the context has no "Source:" marker. -/
def sourceNote : String :=
  "\n\nNote: Source information not available for this answer."

/-- `validate_and_enhance_answer` of the README: appends the confidence
sentence when `enable_confidence_scoring` is set, then the missing-source
note when `enable_source_attribution` is set and the context carries no
"Source:" marker. -/
def validate_and_enhance_answer (cfg : RagConfig)
    (answer _question context : String) (quality : ContextQuality) : String :=
  let enhanced :=
    if cfg.enable_confidence_scoring then answer ++ confidenceLine quality
    else answer
  if cfg.enable_source_attribution && !strContains context "Source:" then
    enhanced ++ sourceNote
  else enhanced

/-- The generation strategies of the spec's state machine. -/
inductive GenStrategy
  | advanced
  | standard
  | fallback
deriving DecidableEq

/-- Modelled from the spec: strategy selection by quality class —
`Excellent|Good → Advanced`, `Acceptable → Standard`, `Poor → Fallback`. -/
def select_strategy : ContextQuality → GenStrategy
  | .excellent => .advanced
  | .good => .advanced
  | .acceptable => .standard
  | .poor => .fallback

/-- Unwraps a generation outcome; no strategy ever produces `.error`. -/
def okText : Except String String → String
  | .ok t => t
  | .error t => t

/-- Modelled from the spec: the pipeline tail — classify the bundle,
dispatch the selected generation strategy, validate and enhance. -/
def respond (extract_key_information : String → String → String)
    (llmResult : Option (Except String String)) (cfg : RagConfig)
    (question : String) (bundle : List RetrievalResult) : String :=
  let context := contextString bundle
  let quality := classify (aggregateScore bundle)
  let draft :=
    match select_strategy quality with
    | .advanced =>
      okText (generate_advanced_rag_response extract_key_information
        llmResult question context quality)
    | .standard =>
      okText (generate_standard_rag_response extract_key_information
        question context quality)
    | .fallback =>
      okText (generate_fallback_response question context quality)
  validate_and_enhance_answer cfg draft question context quality

/-- Modelled from the spec: the unique working set after the Primary and
Local-fallback strategies.  The Primary index, when configured, is queried
for `context_size * 2` nearest neighbors (the README's
`pinecone.query_similar(question_vector, context_size * 2)`); the local
strategy is attempted when the unique results so far number fewer than
`contextSize`. -/
def uniqueAfterPrimaryLocal
    (primary : Option (Nat → List RetrievalResult))
    (localSearch : Nat → List RetrievalResult) (contextSize : Nat) :
    List RetrievalResult :=
  let primaryHits :=
    match primary with
    | some query_similar => query_similar (contextSize * 2)
    | none => []
  let uniquePrimary := dedupAll primaryHits
  if uniquePrimary.length < contextSize then
    dedupAll (primaryHits ++ localSearch contextSize)
  else uniquePrimary

/-- Outcome of one retrieval invocation: whether semantic expansion ran,
and the assembled bundle. -/
structure RetrievalOutcome where
  expansionRan : Bool
  bundle : List RetrievalResult
deriving DecidableEq

/-- Modelled from the spec: the Retriever orchestration.  Semantic
expansion runs iff the accumulated unique results number strictly fewer
than `contextSize / 2` (the README's
`if all_sources.len() < context_size / 2`), asking for the remaining
budget `context_size - all_sources.len()`. -/
def retrieve (primary : Option (Nat → List RetrievalResult))
    (localSearch expansion : Nat → List RetrievalResult)
    (contextSize : Nat) : RetrievalOutcome :=
  let acc := uniqueAfterPrimaryLocal primary localSearch contextSize
  let expand := decide (acc.length < contextSize / 2)
  let raw := if expand then acc ++ expansion (contextSize - acc.length) else acc
  { expansionRan := expand, bundle := assembleBundle raw contextSize }

/-! Helper lemmas about substring containment. -/

theorem listContains_iff (t p : List Char) : listContains t p = true ↔ p <:+: t := by
  induction t with
  | nil =>
    cases p with
    | nil => simp [listContains]
    | cons a as => simp [listContains, List.isPrefixOf]
  | cons c t ih =>
    rw [listContains]
    simp only [ List.isPrefixOf_iff_prefix, List.infix_cons_iff]
    by_cases h : p <+: c :: t
    · simp [h]
    · simp [h, ih]

theorem strContains_iff (s p : String) :
    strContains s p = true ↔ p.data <:+: s.data :=
  listContains_iff _ _

theorem strContains_append_left (s t p : String)
    (h : strContains s p = true) : strContains (s ++ t) p = true := by
  rw [strContains_iff] at h ⊢
  rw [String.data_append]
  exact h.trans (List.prefix_append _ _).isInfix

theorem strContains_append_right (s t p : String)
    (h : strContains t p = true) : strContains (s ++ t) p = true := by
  rw [strContains_iff] at h ⊢
  rw [String.data_append]
  exact h.trans (List.suffix_append _ _).isInfix

theorem strContains_self (s : String) : strContains s s = true :=
  (strContains_iff _ _).mpr (List.infix_refl _)

/-! Nonnegativity of the scorer's components. -/

theorem exactTerm_nonneg (c q : String) : 0 ≤ exactTerm c q := by
  unfold exactTerm; positivity

theorem subwordTerm_nonneg (c q : String) : 0 ≤ subwordTerm c q := by
  unfold subwordTerm; positivity

theorem techTerm_nonneg (c q : String) : 0 ≤ techTerm c q := by
  unfold techTerm; positivity

theorem defBonus_nonneg (c : String) : 0 ≤ defBonus c := by
  unfold defBonus; split <;> norm_num

theorem lenBonus_nonneg (c : String) : 0 ≤ lenBonus c := by
  unfold lenBonus; split <;> norm_num

theorem howBonus_nonneg (c q : String) : 0 ≤ howBonus c q := by
  unfold howBonus; split <;> norm_num

theorem scoreSum_nonneg (c q : String) :
    0 ≤ exactTerm c q + subwordTerm c q + techTerm c q
      + defBonus c + lenBonus c + howBonus c q := by
  have h1 := exactTerm_nonneg c q
  have h2 := subwordTerm_nonneg c q
  have h3 := techTerm_nonneg c q
  have h4 := defBonus_nonneg c
  have h5 := lenBonus_nonneg c
  have h6 := howBonus_nonneg c q
  linarith

/-- Claim C1: the quality classifier is total on scores, returning exactly
one of the four classes with inclusive lower band boundaries and no gaps or
overlaps — Excellent iff score ≥ 0.8, Good iff 0.6 ≤ score < 0.8,
Acceptable iff 0.4 ≤ score < 0.6, Poor otherwise — and the eight boundary
inputs 0, 0.399, 0.4, 0.599, 0.6, 0.799, 0.8, 1 map to Poor, Poor,
Acceptable, Acceptable, Good, Good, Excellent, Excellent. -/
theorem claim_C1 (s : ℚ) :
    (classify s = .excellent ↔ 4/5 ≤ s)
    ∧ (classify s = .good ↔ 3/5 ≤ s ∧ s < 4/5)
    ∧ (classify s = .acceptable ↔ 2/5 ≤ s ∧ s < 3/5)
    ∧ (classify s = .poor ↔ s < 2/5)
    ∧ classify 0 = .poor ∧ classify (399/1000) = .poor
    ∧ classify (2/5) = .acceptable ∧ classify (599/1000) = .acceptable
    ∧ classify (3/5) = .good ∧ classify (799/1000) = .good
    ∧ classify (4/5) = .excellent ∧ classify 1 = .excellent := by
  unfold classify
  refine ⟨?_, ?_, ?_, ?_, by norm_num, by norm_num, by norm_num, by norm_num,
    by norm_num, by norm_num, by norm_num, by norm_num⟩ <;>
  · split_ifs with h1 h2 h3 <;> simp_all <;> first
    | linarith
    | (intro h; linarith)

/-- Claim C2: for every chunk text and question, the context scorer returns
the clamp to `[0,1]` of the weighted sum of its six sub-scores (exact
keyword ratio times 0.5, partial-word ratio times 0.3, technical-term
ratio times 0.2, definition-marker bonus 0.1, optimal-length bonus 0.1 and
how-question bonus 0.1), and the returned value always lies in `[0,1]`. -/
theorem claim_C2 (c q : String) :
    score_chunk_relevance c q
      = clamp01 (exactTerm c q + subwordTerm c q + techTerm c q
          + defBonus c + lenBonus c + howBonus c q)
    ∧ 0 ≤ score_chunk_relevance c q ∧ score_chunk_relevance c q ≤ 1 := by
  have hs := scoreSum_nonneg c q
  unfold score_chunk_relevance clamp01
  refine ⟨?_, ?_, min_le_right _ _⟩
  · rw [max_eq_right]
    exact le_min hs zero_le_one
  · exact le_min hs zero_le_one

/-! Scorer edge-case lemmas. -/

theorem exactTerm_of_no_tokens (c q : String) (h : tokenize q = []) :
    exactTerm c q = 0 := by
  unfold exactTerm
  rw [h]
  simp

theorem subwordTerm_of_no_tokens (c q : String) (h : tokenize q = []) :
    subwordTerm c q = 0 := by
  unfold subwordTerm
  rw [h]
  simp

theorem exactTerm_empty_chunk (q : String) : exactTerm "" q = 0 := by
  unfold exactTerm
  rw [show tokenize "" = [] from by decide]
  simp

theorem subwordTerm_empty_chunk (q : String) : subwordTerm "" q = 0 := by
  unfold subwordTerm
  rw [show tokenize "" = [] from by decide]
  simp

theorem techTerm_empty_chunk (q : String) : techTerm "" q = 0 := by
  unfold techTerm
  have h : technical_terms.filter
      (fun t => listContains (lowerData q) t.data
             && listContains (lowerData "") t.data) = [] := by
    rw [List.filter_eq_nil_iff]
    intro t ht
    have hnil : lowerData "" = [] := rfl
    fin_cases ht <;> simp [hnil, listContains, List.isPrefixOf]
  rw [h]
  simp

theorem techTerm_empty_question (c : String) : techTerm c "" = 0 := by
  unfold techTerm
  have h : technical_terms.filter
      (fun t => listContains (lowerData "") t.data
             && listContains (lowerData c) t.data) = [] := by
    rw [List.filter_eq_nil_iff]
    intro t ht
    have hnil : lowerData "" = [] := rfl
    fin_cases ht <;> simp [hnil, listContains, List.isPrefixOf]
  rw [h]
  simp

theorem defBonus_empty_chunk : defBonus "" = 0 := by
  rw [defBonus, if_neg (by decide)]

theorem lenBonus_empty_chunk : lenBonus "" = 0 := by
  rw [lenBonus, if_neg]
  rintro ⟨h, -⟩
  revert h
  decide

theorem howBonus_empty_chunk (q : String) : howBonus "" q = 0 := by
  rw [howBonus, if_neg]
  rintro ⟨-, h⟩
  revert h
  decide

theorem howBonus_empty_question (c : String) : howBonus c "" = 0 := by
  rw [howBonus, if_neg]
  rintro ⟨h, -⟩
  revert h
  decide

theorem defBonus_le (c : String) : defBonus c ≤ 1/10 := by
  unfold defBonus
  split <;> norm_num

theorem lenBonus_le (c : String) : lenBonus c ≤ 1/10 := by
  unfold lenBonus
  split <;> norm_num

/-- Claim C8: for a question with no tokens after tokenization the
question-token ratio sub-scores are 0 (the 0/0 divisions are taken as 0,
never undefined); for the empty question string the returned score is
exactly the sum of the applicable bonuses and lies in `[0,1]`; and for
empty chunk text the score is the well-defined value 0 (no bonus
applies). -/
theorem claim_C8 (c q : String) :
    (tokenize q = [] → exactTerm c q = 0 ∧ subwordTerm c q = 0)
    ∧ score_chunk_relevance c "" = defBonus c + lenBonus c
    ∧ 0 ≤ score_chunk_relevance c ""
    ∧ score_chunk_relevance c "" ≤ 1
    ∧ score_chunk_relevance "" q = 0 := by
  refine ⟨fun h => ⟨exactTerm_of_no_tokens c q h, subwordTerm_of_no_tokens c q h⟩,
    ?_, ?_, ?_, ?_⟩
  · unfold score_chunk_relevance
    rw [exactTerm_of_no_tokens c "" (by decide),
      subwordTerm_of_no_tokens c "" (by decide),
      techTerm_empty_question c, howBonus_empty_question c]
    have h1 := defBonus_nonneg c
    have h2 := lenBonus_nonneg c
    have h3 := defBonus_le c
    have h4 := lenBonus_le c
    rw [min_eq_left (by linarith)]
    ring
  · exact (claim_C2 c "").2.1
  · exact (claim_C2 c "").2.2
  · unfold score_chunk_relevance
    rw [exactTerm_empty_chunk, subwordTerm_empty_chunk, techTerm_empty_chunk,
      defBonus_empty_chunk, lenBonus_empty_chunk, howBonus_empty_chunk]
    norm_num

/-- Witness for C8: the concrete question "ab cd" has no tokens after
tokenization (all words have length ≤ 3), and both ratio sub-scores
against the chunk "xyz" are 0. -/
theorem claim_C8_witness :
    tokenize "ab cd" = [] ∧ exactTerm "xyz" "ab cd" = 0 ∧ subwordTerm "xyz" "ab cd" = 0 :=
  ⟨by decide, (claim_C8 "xyz" "ab cd").1 (by decide)⟩

/-- Claim C10: the question-shape bonus of 0.1 fires exactly when the
case-folded question contains the substring "how" anywhere (also inside
longer words such as "Show") and the chunk length strictly exceeds 100
characters; no other feature of the question influences it. -/
theorem claim_C10 (c q : String) :
    howBonus c q
      = (if listContains (lowerData q) ("how".data) ∧ 100 < c.length
         then 1/10 else 0)
    ∧ (∀ q', listContains (lowerData q) ("how".data)
          = listContains (lowerData q') ("how".data) →
        howBonus c q = howBonus c q')
    ∧ howBonus (String.mk (List.replicate 120 'a')) "Show me the data" = 1/10
    ∧ howBonus (String.mk (List.replicate 120 'a')) "why is it slow" = 0
    ∧ howBonus (String.mk (List.replicate 100 'a')) "how does it work" = 0
    ∧ howBonus (String.mk (List.replicate 101 'a')) "how does it work" = 1/10 := by
  refine ⟨rfl, fun q' h => ?_, ?_, ?_, ?_, ?_⟩
  · unfold howBonus
    rw [h]
  · rw [howBonus, if_pos ⟨by decide, by decide⟩]
  · rw [howBonus, if_neg]
    rintro ⟨h, -⟩
    revert h
    decide
  · rw [howBonus, if_neg]
    rintro ⟨-, h⟩
    revert h
    decide
  · rw [howBonus, if_pos ⟨by decide, by decide⟩]

/-- Witness for C10: instantiating the invariance part at the concrete
questions "how" and "show" (both contain "how" after case folding). -/
theorem claim_C10_witness :
    howBonus "c" "how" = howBonus "c" "Show" :=
  (claim_C10 "c" "how").2.1 "Show" (by decide)

/-! The Advanced strategy's degradation behaviour. -/

theorem standard_never_errors (extract : String → String → String)
    (q ctx : String) (qual : ContextQuality) :
    ∃ t, generate_standard_rag_response extract q ctx qual = .ok t := by
  unfold generate_standard_rag_response
  dsimp only
  split <;> exact ⟨_, rfl⟩

/-- Claim C3: when the Generator collaborator errors, or returns the
recognizable could-not-answer sentinel, the Advanced strategy degrades to
Standard within the same invocation — the result is exactly the Standard
strategy's output for the same question and context — and a Generator
error never propagates to the caller (the Advanced strategy always returns
successfully). -/
theorem claim_C3 (extract : String → String → String)
    (q ctx : String) (qual : ContextQuality) :
    (∀ e, generate_advanced_rag_response extract (some (.error e)) q ctx qual
        = generate_standard_rag_response extract q ctx qual)
    ∧ (∀ ans, strContains ans sentinel = true →
        generate_advanced_rag_response extract (some (.ok ans)) q ctx qual
          = generate_standard_rag_response extract q ctx qual)
    ∧ (∀ llmResult, ∃ t,
        generate_advanced_rag_response extract llmResult q ctx qual = .ok t) := by
  refine ⟨fun e => rfl, fun ans h => by simp [generate_advanced_rag_response, h],
    fun llmResult => ?_⟩
  obtain ⟨t, ht⟩ := standard_never_errors extract q ctx qual
  rcases llmResult with - | (e | ans)
  · exact ⟨t, by simp only [generate_advanced_rag_response]; exact ht⟩
  · exact ⟨t, by simp only [generate_advanced_rag_response]; exact ht⟩
  · by_cases hc : (!ans.isEmpty && !strContains ans sentinel) = true
    · exact ⟨ans, by simp only [generate_advanced_rag_response]; rw [if_pos hc]⟩
    · exact ⟨t, by simp only [generate_advanced_rag_response]; rw [if_neg hc]; exact ht⟩

/-- Witness for C3: with the Generator returning exactly the sentinel
sentence, the Advanced strategy returns the Standard strategy's output. -/
theorem claim_C3_witness :
    generate_advanced_rag_response (fun _ _ => "") (some (.ok sentinel))
        "q" "ctx" ContextQuality.good
      = generate_standard_rag_response (fun _ _ => "") "q" "ctx" ContextQuality.good :=
  (claim_C3 (fun _ _ => "") "q" "ctx" ContextQuality.good).2.1 sentinel
    (strContains_self sentinel)

/-- Claim C9: the Advanced strategy also degrades to Standard when the
Generator returns the empty string, and the sentinel is detected by
substring containment of the exact text "I couldn't generate a response"
(a longer reply embedding that sentence also degrades); any non-empty
reply that does not contain the sentinel is returned verbatim. -/
theorem claim_C9 (extract : String → String → String)
    (q ctx : String) (qual : ContextQuality) :
    sentinel = "I couldn't generate a response"
    ∧ generate_advanced_rag_response extract (some (.ok "")) q ctx qual
        = generate_standard_rag_response extract q ctx qual
    ∧ (∀ pre post,
        generate_advanced_rag_response extract
            (some (.ok (pre ++ sentinel ++ post))) q ctx qual
          = generate_standard_rag_response extract q ctx qual)
    ∧ (∀ ans, ans.isEmpty = false → strContains ans sentinel = false →
        generate_advanced_rag_response extract (some (.ok ans)) q ctx qual
          = .ok ans) := by
  refine ⟨rfl, ?_, fun pre post => ?_, fun ans h1 h2 => ?_⟩
  · simp [generate_advanced_rag_response]
    exact fun h1 => absurd h1 (by decide)
  · have h : strContains (pre ++ sentinel ++ post) sentinel = true :=
      strContains_append_left _ _ _
        (strContains_append_right _ _ _ (strContains_self sentinel))
    simp [generate_advanced_rag_response, h]
  · simp [generate_advanced_rag_response, h1, h2]

/-- Witness for C9: a Generator reply embedding the sentinel in a longer
sentence degrades to Standard, and the concrete non-empty reply "Yes."
is returned verbatim. -/
theorem claim_C9_witness :
    generate_advanced_rag_response (fun _ _ => "k") (some (.ok "Yes."))
        "q" "ctx" ContextQuality.excellent
      = .ok "Yes." :=
  (claim_C9 (fun _ _ => "k") "q" "ctx" ContextQuality.excellent).2.2.2 "Yes."
    (by decide) (by decide)

/-! The validator's confidence labeling. -/

/-- Counterexample to claim C5 as stated: with confidence scoring disabled
in the configuration, the validated answer carries no confidence label at
all, so the label is not "always present". -/
theorem claim_C5_counterexample :
    validate_and_enhance_answer ⟨false, false⟩ "ans" "q" "ctx"
        ContextQuality.excellent = "ans"
    ∧ strContains (validate_and_enhance_answer ⟨false, false⟩ "ans" "q" "ctx"
        ContextQuality.excellent) "Confidence" = false := by
  constructor
  · rfl
  · decide

theorem confidenceLine_contains_label (qual : ContextQuality) :
    strContains (confidenceLine qual)
      ("Confidence: " ++ confidenceLabel qual) = true := by
  cases qual <;> decide

/-- Claim C5, amended: whenever confidence scoring is enabled in the
configuration (the documented default), the validated answer is the input
answer followed by a confidence sentence that is a pure function of the
quality class alone — never of the answer content — and carries the label
Excellent→"High", Good→"Good", Acceptable→"Moderate", Poor→"Low". -/
theorem claim_C5_amended (cfg : RagConfig)
    (answer question context : String) (qual : ContextQuality)
    (h : cfg.enable_confidence_scoring = true) :
    validate_and_enhance_answer cfg answer question context qual
      = answer ++ (confidenceLine qual
          ++ (if cfg.enable_source_attribution && !strContains context "Source:"
              then sourceNote else ""))
    ∧ strContains (validate_and_enhance_answer cfg answer question context qual)
        ("Confidence: " ++ confidenceLabel qual) = true
    ∧ confidenceLabel .excellent = "High" ∧ confidenceLabel .good = "Good"
    ∧ confidenceLabel .acceptable = "Moderate" ∧ confidenceLabel .poor = "Low" := by
  have heq : validate_and_enhance_answer cfg answer question context qual
      = answer ++ (confidenceLine qual
          ++ (if cfg.enable_source_attribution && !strContains context "Source:"
              then sourceNote else "")) := by
    unfold validate_and_enhance_answer
    dsimp only
    rw [if_pos h]
    by_cases ha : (cfg.enable_source_attribution && !strContains context "Source:") = true
    · rw [if_pos ha, if_pos ha, String.append_assoc]
    · rw [if_neg ha, if_neg ha]
      simp
  refine ⟨heq, ?_, rfl, rfl, rfl, rfl⟩
  rw [heq]
  exact strContains_append_right _ _ _
    (strContains_append_left _ _ _ (confidenceLine_contains_label qual))

/-- Witness for the amended C5: the documented default configuration has
confidence scoring enabled, and a Poor-quality validated answer carries
the label "Low". -/
theorem claim_C5_amended_witness :
    strContains (validate_and_enhance_answer defaultRagConfig "a" "q" "c"
        ContextQuality.poor) ("Confidence: " ++ confidenceLabel ContextQuality.poor)
      = true :=
  (claim_C5_amended defaultRagConfig "a" "q" "c" ContextQuality.poor rfl).2.1

/-! The empty-retrieval fallback scenario. -/

theorem hasNonWs_append_left (s t : String) (h : hasNonWs s = true) :
    hasNonWs (s ++ t) = true := by
  unfold hasNonWs at h ⊢
  rw [String.data_append, List.any_append, h]
  rfl

theorem fallback_section_iff (q ctx : String) (qual : ContextQuality) :
    strContains (okText (generate_fallback_response q ctx qual))
        "Available context (limited):" = true
      ↔ hasNonWs ctx = true := by
  unfold generate_fallback_response
  by_cases hns : hasNonWs ctx = true
  · rw [if_pos hns]
    unfold okText
    refine iff_of_true ?_ hns
    exact strContains_append_left (fallbackBase ++ "Available context (limited):\n")
      ctx "Available context (limited):"
      (strContains_append_right fallbackBase "Available context (limited):\n"
        "Available context (limited):" (by decide))
  · rw [if_neg hns]
    unfold okText
    rw [Bool.not_eq_true] at hns
    rw [hns]
    simp only [iff_false, Bool.false_eq_true]
    decide

/-- Claim C4: when retrieval yields zero results the bundle is empty, its
aggregate score is 0, its quality is Poor, and the pipeline's answer is
the templated Fallback message containing three distinct improvement
suggestions (index more content, use more specific terms, verify
indexing) and the "Low" confidence label, without the limited-context
section; and the Fallback answer carries the labeled
"Available context (limited):" section exactly when the bundle carries
visible context. -/
theorem claim_C4 (extract : String → String → String)
    (llm : Option (Except String String)) (question : String) :
    aggregateScore [] = 0
    ∧ classify (aggregateScore []) = ContextQuality.poor
    ∧ respond extract llm defaultRagConfig question []
        = fallbackBase ++ (confidenceLine .poor ++ sourceNote)
    ∧ strContains (respond extract llm defaultRagConfig question [])
        "1. Indexing more documentation about the topic" = true
    ∧ strContains (respond extract llm defaultRagConfig question [])
        "2. Using more specific search terms" = true
    ∧ strContains (respond extract llm defaultRagConfig question [])
        "3. Checking if the documents are properly indexed" = true
    ∧ ("1. Indexing more documentation about the topic"
        ≠ "2. Using more specific search terms")
    ∧ ("1. Indexing more documentation about the topic"
        ≠ "3. Checking if the documents are properly indexed")
    ∧ ("2. Using more specific search terms"
        ≠ "3. Checking if the documents are properly indexed")
    ∧ strContains (respond extract llm defaultRagConfig question [])
        "Confidence: Low" = true
    ∧ strContains (respond extract llm defaultRagConfig question [])
        "Available context (limited):" = false
    ∧ (∀ q2 ctx qual, strContains (okText (generate_fallback_response q2 ctx qual))
          "Available context (limited):" = true ↔ hasNonWs ctx = true)
    ∧ (∀ q2 qual (bundle : List RetrievalResult),
        (∀ r ∈ bundle, hasNonWs r.text = true) →
        (strContains (okText (generate_fallback_response q2 (contextString bundle) qual))
            "Available context (limited):" = true ↔ bundle ≠ [])) := by
  have hagg : aggregateScore ([] : List RetrievalResult) = 0 := by
    simp [aggregateScore]
  have hq : classify (0 : ℚ) = ContextQuality.poor := by
    norm_num [classify]
  have hresp : respond extract llm defaultRagConfig question []
      = fallbackBase ++ (confidenceLine .poor ++ sourceNote) := by
    unfold respond
    dsimp only
    rw [show contextString [] = "" from rfl, hagg, hq]
    show validate_and_enhance_answer defaultRagConfig
      (okText (generate_fallback_response question "" ContextQuality.poor))
      question "" ContextQuality.poor
      = fallbackBase ++ (confidenceLine .poor ++ sourceNote)
    rw [show okText (generate_fallback_response question "" ContextQuality.poor)
        = fallbackBase from rfl]
    rw [(claim_C5_amended defaultRagConfig fallbackBase question ""
      ContextQuality.poor rfl).1]
    rw [if_pos (by decide)]
  refine ⟨hagg, by rw [hagg]; exact hq, hresp, ?_, ?_, ?_, by decide, by decide,
    by decide, ?_, ?_, fallback_section_iff, ?_⟩
  · rw [hresp]
    exact strContains_append_left _ _ _ (by decide)
  · rw [hresp]
    exact strContains_append_left _ _ _ (by decide)
  · rw [hresp]
    exact strContains_append_left _ _ _ (by decide)
  · rw [hresp]
    exact strContains_append_right _ _ _ (strContains_append_left _ _ _ (by decide))
  · rw [hresp]
    decide
  · intro q2 qual bundle hb
    cases bundle with
    | nil =>
      simp only [ne_eq, not_true_eq_false, iff_false]
      rw [fallback_section_iff]
      decide
    | cons r rest =>
      have hr : hasNonWs r.text = true := hb r (List.mem_cons_self r rest)
      have hctx : hasNonWs (contextString (r :: rest)) = true := by
        cases rest with
        | nil => exact hr
        | cons r2 rest2 =>
          rw [show contextString (r :: r2 :: rest2)
              = r.text ++ "\n\n" ++ contextString (r2 :: rest2) from rfl]
          rw [String.append_assoc]
          exact hasNonWs_append_left _ _ hr
      rw [fallback_section_iff, hctx]
      simp

/-- Witness for C4: a singleton bundle whose chunk text is visibly
non-empty does get the limited-context section. -/
theorem claim_C4_witness :
    strContains (okText (generate_fallback_response "q"
        (contextString [⟨1, "abc", 0, 0, StrategyOrigin.primary⟩])
        ContextQuality.poor)) "Available context (limited):" = true
    ∧ aggregateScore [] = 0 :=
  ⟨((claim_C4 (fun _ _ => "") none "q").2.2.2.2.2.2.2.2.2.2.2.2
      "q" ContextQuality.poor [⟨1, "abc", 0, 0, StrategyOrigin.primary⟩]
      (by decide)).mpr (by decide),
   (claim_C4 (fun _ _ => "") none "q").1⟩

/-! ContextBundle assembly: deduplication and ordering. -/

theorem dedupInsert_ids_mem (acc : List RetrievalResult) (r : RetrievalResult)
    (h : acc.any (fun x => x.chunkId == r.chunkId) = true) :
    (dedupInsert acc r).map (fun x => x.chunkId)
      = acc.map (fun x => x.chunkId) := by
  unfold dedupInsert
  rw [if_pos h, List.map_map]
  apply List.map_congr_left
  intro x hx
  by_cases hc : (x.chunkId == r.chunkId) = true ∧ x.relevanceScore < r.relevanceScore
  · simp only [Function.comp_apply, if_pos hc]
    exact (eq_of_beq hc.1).symm
  · simp only [Function.comp_apply, if_neg hc]

theorem dedupInsert_ids_new (acc : List RetrievalResult) (r : RetrievalResult)
    (h : acc.any (fun x => x.chunkId == r.chunkId) = false) :
    dedupInsert acc r = acc ++ [r] := by
  unfold dedupInsert
  rw [if_neg]
  simp [h]

theorem dedup_foldl_ids_nodup (rs acc : List RetrievalResult)
    (hacc : (acc.map (fun x => x.chunkId)).Nodup) :
    ((rs.foldl dedupInsert acc).map (fun x => x.chunkId)).Nodup := by
  induction rs generalizing acc with
  | nil => exact hacc
  | cons r rs ih =>
    rw [List.foldl_cons]
    apply ih
    by_cases h : acc.any (fun x => x.chunkId == r.chunkId) = true
    · rw [dedupInsert_ids_mem acc r h]
      exact hacc
    · rw [Bool.not_eq_true] at h
      rw [dedupInsert_ids_new acc r h, List.map_append]
      rw [List.any_eq_false] at h
      simp only [List.nodup_append, List.map_cons, List.map_nil]
      refine ⟨hacc, List.nodup_singleton _, ?_⟩
      intro i hi
      rcases List.mem_map.mp hi with ⟨x, hx, hxi⟩
      have hne : ¬(x.chunkId == r.chunkId) = true := h x hx
      rw [beq_iff_eq] at hne
      simp only [List.mem_singleton]
      exact fun hir => hne (hxi.trans hir)

theorem dedupAll_ids_nodup (rs : List RetrievalResult) :
    ((dedupAll rs).map (fun x => x.chunkId)).Nodup :=
  dedup_foldl_ids_nodup rs [] (by simp)

theorem bundleLE_score (a b : RetrievalResult) (h : bundleLE a b) :
    b.relevanceScore ≤ a.relevanceScore := by
  rcases h with h | ⟨e, -⟩
  · exact le_of_lt h
  · exact le_of_eq e.symm

/-- Claim C6: every assembled ContextBundle has at most one entry per
chunk id, the surviving entry for a duplicated id is the one with the
higher relevance score (scores 0.4 and 0.7 keep 0.7), and the entries are
ordered non-increasing in relevance score. -/
theorem claim_C6 (raw : List RetrievalResult) (n : Nat) :
    ((assembleBundle raw n).map (fun x => x.chunkId)).Nodup
    ∧ (assembleBundle raw n).Pairwise
        (fun a b => b.relevanceScore ≤ a.relevanceScore)
    ∧ assembleBundle [⟨1, "t", 1/2, 2/5, .primary⟩,
        ⟨1, "t", 1/2, 7/10, .localFallback⟩] 5
      = [⟨1, "t", 1/2, 7/10, .localFallback⟩] := by
  refine ⟨?_, ?_, ?_⟩
  · unfold assembleBundle
    rw [List.map_take]
    apply List.Nodup.sublist (List.take_sublist _ _)
    exact ((List.perm_insertionSort bundleLE (dedupAll raw)).map
      (fun x => x.chunkId)).nodup_iff.mpr (dedupAll_ids_nodup raw)
  · unfold assembleBundle
    apply List.Pairwise.sublist (List.take_sublist _ _)
    exact (List.sorted_insertionSort bundleLE (dedupAll raw)).imp
      (fun h => bundleLE_score _ _ h)
  · have hlt : (2/5 : ℚ) < 7/10 := by norm_num
    simp [assembleBundle, dedupAll, dedupInsert, hlt,
      List.insertionSort, List.orderedInsert]

/-! The retrieval orchestration. -/

/-- Claim C7: the Primary remote index is consulted for exactly
`2 × contextSize` nearest neighbors (the outcome depends on the primary
collaborator only through its answer at `contextSize * 2`), and semantic
expansion runs iff the unique results accumulated after the Primary and
Local strategies number strictly fewer than `contextSize / 2` (when it
does not run, the expansion collaborator is never consulted). -/
theorem claim_C7 (p : Option (Nat → List RetrievalResult))
    (f g localSearch expansion expansion2 : Nat → List RetrievalResult)
    (n : Nat) :
    (f (n * 2) = g (n * 2) →
      retrieve (some f) localSearch expansion n
        = retrieve (some g) localSearch expansion n)
    ∧ ((retrieve p localSearch expansion n).expansionRan = true
        ↔ (uniqueAfterPrimaryLocal p localSearch n).length < n / 2)
    ∧ (n / 2 ≤ (uniqueAfterPrimaryLocal p localSearch n).length →
        retrieve p localSearch expansion n
          = retrieve p localSearch expansion2 n) := by
  refine ⟨fun h => ?_, ?_, fun h => ?_⟩
  · unfold retrieve uniqueAfterPrimaryLocal
    dsimp only
    rw [h]
  · unfold retrieve
    simp
  · unfold retrieve
    have hd : decide ((uniqueAfterPrimaryLocal p localSearch n).length < n / 2)
        = false := by
      simp [Nat.not_lt.mpr h]
    dsimp only
    rw [hd]
    simp

/-- Witness for C7: two primary collaborators agreeing at `2 × 3 = 6`
produce identical outcomes, and with `contextSize = 0` the expansion
threshold `0 / 2 = 0` is never undershot, so the expansion collaborator is
irrelevant. -/
theorem claim_C7_witness :
    retrieve (some fun _ => []) (fun _ => []) (fun _ => []) 3
        = retrieve (some fun _ => []) (fun _ => []) (fun _ => []) 3
    ∧ retrieve none (fun _ => []) (fun _ => []) 0
        = retrieve none (fun _ => [])
            (fun _ => [⟨1, "t", 0, 0, StrategyOrigin.primary⟩]) 0 :=
  ⟨(claim_C7 none (fun _ => []) (fun _ => []) (fun _ => []) (fun _ => [])
      (fun _ => []) 3).1 rfl,
   (claim_C7 none (fun _ => []) (fun _ => []) (fun _ => []) (fun _ => [])
      (fun _ => [⟨1, "t", 0, 0, StrategyOrigin.primary⟩]) 0).2.2
      (Nat.zero_le _)⟩

end ChunkyMonkey
